import Mathlib

/-!
Shallow embedding of the external_media_manager repository
(src/models.py, src/external_media_manager.py, src/file_indexer.py)
and proofs of the frozen claims about it.

Modelling conventions:
* Filesystem paths are modelled as the list of their segments below the
  filesystem root, so the Python value Path("/media/x.mkv") becomes
  ["media", "x.mkv"].  Rendering with str(...) is modelled by pathStr.
* Filesystem effects (glob traversal, symlink resolution, stat probing,
  file reads and writes) are supplied as explicit oracle inputs: the glob
  output becomes a list of FsEntry values, the index backing file becomes
  a Disk value, and Path.resolve on index lookups becomes an explicit
  resolve function argument.
* Python int is modelled as Int.  Wall-clock floats
  (scan_duration_seconds) and float rendering (size_mb, total_size_gb,
  ISO timestamp text) carry no claim; rounded float fields are modelled
  as exact scaled integers and timestamp rendering by an injective
  toString, with comments at each site.
-/

namespace EMM

/-- A filesystem path, as the list of its segments below the root.
The Python value Path("/media/x.mkv") is modelled as ["media", "x.mkv"]. -/
abbrev FsPath := List String

/-- Rendering of an absolute path as a string, modelling Python str(Path(...)). -/
def pathStr (p : FsPath) : String :=
  "/" ++ String.intercalate "/" p

/-- Containment test, modelling Path.is_relative_to on resolved absolute
paths: the root path must be a segment prefix of the candidate path. -/
def isRelativeTo (p root : FsPath) : Bool :=
  root.isPrefixOf p

/-- Lowercasing of one character: ASCII letters are mapped to their
lowercase form, everything else is unchanged.  This models Python
str.lower on the ASCII extension and suffix strings the program
handles. -/
def pyLowerChar (c : Char) : Char :=
  if 'A' ≤ c ∧ c ≤ 'Z' then Char.ofNat (c.toNat + 32) else c

/-- Python str.lower, modelling the lower() calls on extensions. -/
def pyLower (s : String) : String := String.mk (s.data.map pyLowerChar)

/-- Python lstrip with argument ".": drops every leading dot character. -/
def lstripDot (s : String) : String :=
  String.mk (s.data.dropWhile (fun c => c = '.'))

/-- Normalisation applied to every extension in the source:
e.lower().lstrip("."). -/
def normExt (e : String) : String := lstripDot (pyLower e)

/-- Deduplication keeping the first occurrence of each element, modelling
the construction of a Python set from a list while retaining the order
in which members were first seen. -/
def dedupFirst {α : Type} [DecidableEq α] : List α → List α
  | [] => []
  | x :: xs => x :: (dedupFirst xs).filter (fun y => decide (y ≠ x))

/-- Lexicographic comparison of character lists by code point, the
ordering Python uses to compare strings. -/
def charListLe : List Char → List Char → Bool
  | [], _ => true
  | _ :: _, [] => false
  | a :: as, b :: bs => if a = b then charListLe as bs else decide (a < b)

/-- String comparison by code points, modelling Python string order. -/
def strLe (a b : String) : Bool := charListLe a.data b.data

/-- Stable insertion into a sorted list of strings, ascending. -/
def insertSorted (s : String) : List String → List String
  | [] => [s]
  | x :: xs => if strLe s x then s :: x :: xs else x :: insertSorted s xs

/-- Ascending stable sort of strings, modelling Python sorted(...) on the
extension set. -/
def sortStrings : List String → List String
  | [] => []
  | x :: xs => insertSorted x (sortStrings xs)

/-- MediaFile from src/models.py: one discovered media file with metadata.
Timestamps are modelled as integer instants; duration_seconds is a float
in the source but always None in this core, so an integer model is exact
for every reachable value. -/
structure MediaFile where
  path : FsPath
  name : String
  extension : String
  size_bytes : Int
  modified_at : Int
  created_at : Option Int := none
  duration_seconds : Option Int := none
deriving Repr, DecidableEq

/-- ScanResult from src/models.py: the result of one folder scan.
The scan_duration_seconds field (a wall-clock float measured with
time.perf_counter) is outside the embedding: no claim mentions it and
real time is not representable here. -/
structure ScanResult where
  root_path : FsPath
  files : List MediaFile := []
  extensions_scanned : List String := []
  total_size_bytes : Int := 0
  errors : List String := []
deriving Repr, DecidableEq

/-- ScanResult.file_count property from src/models.py. -/
def ScanResult.file_count (r : ScanResult) : Nat := r.files.length

/-- Modelled from the spec: the EventType enumeration is part of the
models module that is missing from src (src/models.py holds only
MediaFile and ScanResult, while src/external_media_manager.py imports
EventType and MediaEvent from it).  The spec glossary lists exactly
these five event kinds. -/
inductive EventType where
  | FILE_DISCOVERED
  | FILE_MODIFIED
  | FILE_DELETED
  | FILE_MOVED
  | SCAN_COMPLETED
deriving Repr, DecidableEq

/-- Modelled from the spec: the MediaEvent dataclass is part of the
models module that is missing from src.  Spec section 3 gives its
attributes: event kind, optional MediaFileRecord, source root path, and
an optional files-found count populated only for SCAN_COMPLETED.  The
constructor calls in src/external_media_manager.py use exactly these
fields. -/
structure MediaEvent where
  event_type : EventType
  media_file : Option MediaFile := none
  source_path : FsPath
  files_found : Option Nat := none
deriving Repr, DecidableEq

/-- Default media extensions from src/external_media_manager.py line 23,
a frozenset in the source, modelled as the list of its members. -/
def DEFAULT_EXTENSIONS : List String :=
  ["mkv", "mp4", "avi", "webm", "mov", "wmv", "flv"]

/-- Constructor logic of ExternalMediaManager.__init__ line 41:
self._extensions = extensions or set(DEFAULT_EXTENSIONS).  The Python
or operator falls back to the default when extensions is None or an
empty (falsy) set. -/
def initExtensions (extensions : Option (List String)) : List String :=
  match extensions with
  | none => DEFAULT_EXTENSIONS
  | some l => if l.isEmpty then DEFAULT_EXTENSIONS else l

/-- Per-scan extension choice of scan_folder line 80:
exts = extensions or self._extensions, again with Python or semantics
on the optional, possibly empty, override set. -/
def effectiveExtensions (override : Option (List String)) (instExts : List String) :
    List String :=
  match override with
  | none => instExts
  | some l => if l.isEmpty then instExts else l

/-- The lowercased, dot-stripped extension set of scan_folder line 81:
exts_lower is a set comprehension over exts; dedupFirst models the set
construction. -/
def extsLowerOf (exts : List String) : List String :=
  dedupFirst (exts.map normExt)

/-- One directory entry yielded by the glob traversal of scan_folder.
The filesystem is an oracle: each entry records what the os calls on it
return during the scan.  The resolved field is none when Path.resolve
raises OSError (caught at line 107); probe is the outcome of
get_file_info on the entry, either the MediaFile built at lines 178-186
or the text of the OSError or PermissionError it raised. -/
structure FsEntry where
  path : FsPath
  isSymlink : Bool
  isFile : Bool
  resolved : Option FsPath
  suffix : String
  probe : Except String MediaFile

/-- Oracle coherence for one traversal entry: when the probe succeeds,
the path stored in the returned MediaFile is the resolved path of the
entry, because get_file_info resolves the same path again at line 164. -/
def probeCoherent (e : FsEntry) : Bool :=
  match e.probe with
  | Except.ok mf => e.resolved == some mf.path
  | Except.error _ => true

/-- The error string built at scan_folder line 128:
"Error reading {file_path}: {e}". -/
def scanErrMsg (p : FsPath) (msg : String) : String :=
  "Error reading " ++ pathStr p ++ ": " ++ msg

/-- Mutable state of one scan_folder call: the ScanResult under
construction plus the events emitted so far through _emit_event. -/
structure ScanState where
  result : ScanResult
  events : List MediaEvent
deriving Repr, DecidableEq

/-- The FILE_DISCOVERED event built at scan_folder lines 120-126. -/
def fdEvent (root : FsPath) (mf : MediaFile) : MediaEvent :=
  { event_type := EventType.FILE_DISCOVERED
    media_file := some mf
    source_path := root }

/-- The SCAN_COMPLETED event built at scan_folder lines 140-147. -/
def scEvent (root : FsPath) (count : Nat) : MediaEvent :=
  { event_type := EventType.SCAN_COMPLETED
    media_file := none
    source_path := root
    files_found := some count }

/-- Body of the traversal loop of scan_folder, lines 92-130, for one
glob entry, in source order: the symlink skip, the is_file skip, the
resolve and containment check (an OSError during resolve is caught and
the entry skipped), the extension filter, and the probe with its
per-file error handling. -/
def scanStep (followSymlinks : Bool) (root : FsPath) (extsLower : List String)
    (st : ScanState) (e : FsEntry) : ScanState :=
  if e.isSymlink && !followSymlinks then st
  else if !e.isFile then st
  else
    match e.resolved with
    | none => st
    | some r =>
      if isRelativeTo r root = false then st
      else
        if normExt e.suffix ∈ extsLower then
          match e.probe with
          | Except.ok mf =>
            { result :=
                { st.result with
                  files := st.result.files ++ [mf]
                  total_size_bytes := st.result.total_size_bytes + mf.size_bytes }
              events := st.events ++ [fdEvent root mf] }
          | Except.error msg =>
            { st with result :=
                { st.result with errors := st.result.errors ++ [scanErrMsg e.path msg] } }
        else st

/-- The full traversal loop of scan_folder over the glob output. -/
def scanLoop (followSymlinks : Bool) (root : FsPath) (extsLower : List String)
    (entries : List FsEntry) (st : ScanState) : ScanState :=
  entries.foldl (scanStep followSymlinks root extsLower) st

/-- Validation failures raised by scan_folder before any traversal. -/
inductive ScanError where
  | fileNotFound (msg : String)
  | notADirectory (msg : String)
deriving Repr, DecidableEq

/-- Return value of a completed scan_folder call: the ScanResult and the
full event emission log of the call. -/
structure ScanOutput where
  result : ScanResult
  events : List MediaEvent
deriving Repr, DecidableEq

/-- The ScanResult freshly constructed at scan_folder lines 84-87,
wrapped in the initial scan state with an empty event log. -/
def scanInit (instExts : List String) (root : FsPath)
    (override : Option (List String)) : ScanState :=
  { result :=
      { root_path := root
        extensions_scanned :=
          sortStrings (extsLowerOf (effectiveExtensions override instExts)) }
    events := [] }

/-- scan_folder from src/external_media_manager.py lines 51-149.  The
root argument is already resolved (line 73); rootExists and rootIsDir
are the oracle answers to the exists and is_dir checks of lines 75-78.
The recursive flag selects the glob pattern at line 91; in this model
the traversal oracle supplies the matching entry list directly, so the
flag does not alter the fold over the supplied entries.  The returned
events log contains every _emit_event call the scan makes, in order. -/
def scan_folder (instExts : List String) (root : FsPath)
    (rootExists rootIsDir : Bool) (recursive : Bool)
    (override : Option (List String)) (followSymlinks : Bool)
    (entries : List FsEntry) : Except ScanError ScanOutput :=
  if rootExists = false then
    Except.error (ScanError.fileNotFound ("Path does not exist: " ++ pathStr root))
  else if rootIsDir = false then
    Except.error (ScanError.notADirectory ("Path is not a directory: " ++ pathStr root))
  else
    let _ := recursive
    let extsLower := extsLowerOf (effectiveExtensions override instExts)
    let st := scanLoop followSymlinks root extsLower entries (scanInit instExts root override)
    Except.ok
      { result := st.result
        events := st.events ++ [scEvent root st.result.files.length] }

/-- Loop body of group_by_folder, lines 247-251: put the file into the
group of its parent folder, creating the group at the end of the dict
when the parent was not yet a key; Python dicts are insertion-ordered,
so the dict is an association list where existing keys keep their
position and new keys are appended. -/
def gbfStep (result : List (FsPath × List MediaFile)) (f : MediaFile) :
    List (FsPath × List MediaFile) :=
  let parent := f.path.dropLast
  if result.any (fun kv => decide (kv.1 = parent)) then
    result.map (fun kv => if kv.1 = parent then (kv.1, kv.2 ++ [f]) else kv)
  else result ++ [(parent, [f])]

/-- group_by_folder from src/external_media_manager.py lines 233-253:
a fold of gbfStep over the input starting from an empty dict. -/
def group_by_folder (files : List MediaFile) : List (FsPath × List MediaFile) :=
  files.foldl gbfStep []

/-- The grouping group_by_folder is claimed to compute: keys are the
parent folders in first-seen order of the input, and the group of each
key holds exactly the input files with that parent, in input order. -/
def gbfGroups (files : List MediaFile) : List (FsPath × List MediaFile) :=
  (dedupFirst (files.map (fun f => f.path.dropLast))).map
    (fun k => (k, files.filter (fun f => decide (f.path.dropLast = k))))

/-- Identifier of a registered callback function.  The broker stores
references to caller-supplied functions; the model names each reference
by a number and keeps the function behavior as a separate map, so that
invocation logs stay decidable. -/
abbrev CbId := Nat

/-- A subscription id string, the uuid4 value of subscribe line 279. -/
abbrev SubId := String

/-- The subscription table self._subscriptions of the manager, a Python
dict from subscription id to the pair of the subscribed event-type list
and the callback; Python dicts iterate in insertion order, so the table
is an insertion-ordered association list. -/
abbrev Subscriptions := List (SubId × (List EventType × CbId))

/-- Behavior of the registered callbacks: applying a callback to an
event either returns normally (none) or raises an exception whose text
is given (some msg). -/
abbrev CbBehavior := CbId → MediaEvent → Option String

/-- The snapshot phase of _emit_event, lines 314-319: under the
subscription lock, collect in table order every callback whose
subscribed event-type list contains the event type of the event. -/
def snapshotCallbacks (subs : Subscriptions) (ev : MediaEvent) : List CbId :=
  subs.foldl
    (fun acc s => if ev.event_type ∈ s.2.1 then acc ++ [s.2.2] else acc)
    []

/-- The invocation phase of _emit_event, lines 322-328: outside the
lock, call each snapshotted callback in order; an exception raised by a
callback is caught and logged, so the loop always continues with the
next callback.  The returned log pairs each invoked callback with the
outcome of its single invocation. -/
def invokeCallbacks (beh : CbBehavior) (ev : MediaEvent) :
    List CbId → List (CbId × Option String)
  | [] => []
  | c :: rest => (c, beh c ev) :: invokeCallbacks beh ev rest

/-- The _emit_event method, lines 306-328 (source name has a leading
underscore): snapshot then invoke.  The function is total: no callback
exception escapes to the emitting operation. -/
def emit_event (subs : Subscriptions) (beh : CbBehavior) (ev : MediaEvent) :
    List (CbId × Option String) :=
  invokeCallbacks beh ev (snapshotCallbacks subs ev)

/-- JSON values, the shape of what json.load returns and json.dump
writes in src/file_indexer.py.  Numbers are modelled as integers: every
number this program writes is an int or a float rounded to a fixed
number of decimals, which the model stores exactly as a scaled
integer. -/
inductive Json where
  | null
  | bool (b : Bool)
  | num (n : Int)
  | str (s : String)
  | arr (xs : List Json)
  | obj (kvs : List (String × Json))

/-- Lookup of a key in a JSON object; none on a non-object or a missing
key. -/
def jsonField (j : Json) (k : String) : Option Json :=
  match j with
  | Json.obj kvs => kvs.lookup k
  | _ => none

/-- Whether Python len() is defined on the value: dict, list and str
are sized, numbers, booleans and None are not. -/
def jsonHasLen : Json → Bool
  | Json.obj _ => true
  | Json.arr _ => true
  | Json.str _ => true
  | _ => false

/-- Rounding of the exact rational n / d (with d positive) to the
nearest integer, ties to even: the model of Python round on the exact
value.  Used for the fields the source stores as floats rounded to a
fixed number of decimals. -/
def roundHalfEven (n d : Int) : Int :=
  let q := n / d
  let r := n - q * d
  if 2 * r < d then q
  else if d < 2 * r then q + 1
  else if q % 2 = 0 then q else q + 1

/-- Rendering of a timestamp, modelling datetime.isoformat: an injective
textual rendering of the instant; the exact ISO-8601 text carries no
claim. -/
def isoString (t : Int) : String := toString t

/-- MediaFile.to_dict from src/models.py lines 33-44.  The size_mb field
is round(size_bytes / 2^20, 2) in the source, a float rounded to two
decimals; the model stores the value in hundredths of a megabyte as an
exact integer. -/
def MediaFile.to_dict (mf : MediaFile) : Json :=
  Json.obj
    [("path", Json.str (pathStr mf.path)),
     ("name", Json.str mf.name),
     ("extension", Json.str mf.extension),
     ("size_bytes", Json.num mf.size_bytes),
     ("size_mb", Json.num (roundHalfEven (mf.size_bytes * 100) 1048576)),
     ("modified_at", Json.str (isoString mf.modified_at)),
     ("created_at",
       match mf.created_at with
       | some t => Json.str (isoString t)
       | none => Json.null),
     ("duration_seconds",
       match mf.duration_seconds with
       | some d => Json.num d
       | none => Json.null)]

/-- The in-memory index self._index of FileIndexer: a Python dict from
the string form of the path to the dict stored for the file, modelled
as an insertion-ordered association list with pairwise distinct keys. -/
abbrev Index := List (String × Json)

/-- Python dict assignment d[k] = v on an insertion-ordered dict: an
existing key keeps its position and receives the new value, a new key
is appended at the end. -/
def dictSet (m : Index) (k : String) (v : Json) : Index :=
  if m.any (fun kv => decide (kv.1 = k)) then
    m.map (fun kv => if kv.1 = k then (k, v) else kv)
  else m ++ [(k, v)]

namespace FileIndexer

/-- State of the index backing file on disk, as the oracle for the open,
read and json.load calls of FileIndexer.load: the file may be missing,
unreadable (OSError), syntactically invalid JSON (json.JSONDecodeError),
or hold a parsed JSON value. -/
inductive Disk where
  | missing
  | unreadable
  | notJson
  | holds (v : Json)

/-- Outcome of one FileIndexer.load call.  retFalse and retTrue are the
boolean returns of the source; retTrueIllTyped covers the path where
data.get("files", curly braces) produced a sized non-dict value, which
the source stores into self._index and then reports as a successful
load; raises covers the uncaught exceptions the source can leak. -/
inductive LoadOutcome where
  | retFalse
  | retTrue (files : Index)
  | retTrueIllTyped (filesVal : Json)
  | raises (exc : String)

/-- FileIndexer.load from src/file_indexer.py lines 23-48.  With no
configured path it returns False (line 30); a missing file returns
False (line 34); an OSError or a json.JSONDecodeError is caught and
returns False (lines 46-48).  When the file parses, line 39 runs
data.get("files", ...): on a non-dict top level this raises an uncaught
AttributeError; when the files value is present but is not a dict, the
source still assigns it to self._index, and the log line 41 applies
len() to it, raising an uncaught TypeError on unsized values. -/
def load (cfg : Option String) (disk : Disk) : LoadOutcome :=
  match cfg with
  | none => LoadOutcome.retFalse
  | some _ =>
    match disk with
    | Disk.missing => LoadOutcome.retFalse
    | Disk.unreadable => LoadOutcome.retFalse
    | Disk.notJson => LoadOutcome.retFalse
    | Disk.holds v =>
      match v with
      | Json.obj kvs =>
        match kvs.lookup "files" with
        | none => LoadOutcome.retTrue []
        | some (Json.obj fs) => LoadOutcome.retTrue fs
        | some w =>
          if jsonHasLen w then LoadOutcome.retTrueIllTyped w
          else LoadOutcome.raises "TypeError"
      | _ => LoadOutcome.raises "AttributeError"

/-- FileIndexer.save from src/file_indexer.py lines 50-78.  With no
configured path it returns False; an OSError anywhere in the mkdir,
open or write (modelled by ioOk = false) is caught and returns False,
leaving the previous disk state; otherwise the JSON document of lines
62-66 is written and the call returns True.  The now argument is the
datetime.now timestamp of line 63. -/
def save (cfg : Option String) (idx : Index) (now : Int) (ioOk : Bool)
    (disk : Disk) : Bool × Disk :=
  match cfg with
  | none => (false, disk)
  | some _ =>
    if ioOk then
      (true,
       Disk.holds
         (Json.obj
           [("updated_at", Json.str (isoString now)),
            ("file_count", Json.num idx.length),
            ("files", Json.obj idx)]))
    else (false, disk)

/-- FileIndexer.add_file from src/file_indexer.py lines 80-87:
self._index[str(media_file.path)] = media_file.to_dict(). -/
def add_file (idx : Index) (mf : MediaFile) : Index :=
  dictSet idx (pathStr mf.path) mf.to_dict

/-- FileIndexer.add_scan_result from src/file_indexer.py lines 89-100:
add_file for every file of the result, returning the length of the
files list of the result. -/
def add_scan_result (idx : Index) (r : ScanResult) : Index × Nat :=
  (r.files.foldl add_file idx, r.files.length)

/-- FileIndexer.get_file from src/file_indexer.py lines 117-127:
lookup under the key str(Path(path).resolve()).  Path.resolve consults
the filesystem, so it is an explicit function argument of the model. -/
def get_file (resolve : FsPath → FsPath) (idx : Index) (p : FsPath) : Option Json :=
  idx.lookup (pathStr (resolve p))

/-- The size contribution of one stored value to the total of get_stats
line 176: info.get("size_bytes", 0).  A non-dict value would raise
AttributeError at the .get call and a non-numeric stored size would
raise TypeError inside sum; Python booleans are numeric with values 0
and 1. -/
def sizeOfInfo : Json → Except String Int
  | Json.obj kvs =>
    match kvs.lookup "size_bytes" with
    | none => Except.ok 0
    | some (Json.num n) => Except.ok n
    | some (Json.bool b) => Except.ok (if b then 1 else 0)
    | some _ => Except.error "TypeError"
  | _ => Except.error "AttributeError"

/-- The histogram key of one stored value in get_stats lines 179-181:
info.get("extension", "unknown").  A non-dict value raises
AttributeError; the histogram keys of every value this program stores
are strings, and the model rejects other key shapes rather than
mis-modelling Python hashing of arbitrary values. -/
def extOfInfo : Json → Except String String
  | Json.obj kvs =>
    match kvs.lookup "extension" with
    | none => Except.ok "unknown"
    | some (Json.str s) => Except.ok s
    | some _ => Except.error "unhashable-key-model"
  | _ => Except.error "AttributeError"

/-- One increment of the extension histogram, line 181:
extensions[ext] = extensions.get(ext, 0) + 1 on an insertion-ordered
dict. -/
def bumpCount (h : List (String × Nat)) (k : String) : List (String × Nat) :=
  if h.any (fun kv => decide (kv.1 = k)) then
    h.map (fun kv => if kv.1 = k then (kv.1, kv.2 + 1) else kv)
  else h ++ [(k, 1)]

/-- Sum of the stored sizes over the index values, get_stats line 176. -/
def sumSizes : List Json → Except String Int
  | [] => Except.ok 0
  | v :: rest => do
    let n ← sizeOfInfo v
    let s ← sumSizes rest
    Except.ok (n + s)

/-- The extension histogram fold of get_stats lines 179-181. -/
def extHistogramAux (acc : List (String × Nat)) : List Json → Except String (List (String × Nat))
  | [] => Except.ok acc
  | v :: rest => do
    let e ← extOfInfo v
    extHistogramAux (bumpCount acc e) rest

/-- The statistics dictionary returned by get_stats lines 183-190.  The
total_size_gb field is round(total / 2^30, 2) in the source, a float
rounded to two decimals, stored here in hundredths of a gigabyte. -/
structure IndexStats where
  file_count : Nat
  total_size_bytes : Int
  total_size_gb : Int
  extensions : List (String × Nat)
  index_path : Option String
  loaded_from_disk : Bool
deriving Repr, DecidableEq

/-- FileIndexer.get_stats from src/file_indexer.py lines 170-190,
computed on demand from the live in-memory index. -/
def get_stats (idx : Index) (cfg : Option String) (loaded : Bool) :
    Except String IndexStats := do
  let total ← sumSizes (idx.map Prod.snd)
  let exts ← extHistogramAux [] (idx.map Prod.snd)
  Except.ok
    { file_count := idx.length
      total_size_bytes := total
      total_size_gb := roundHalfEven (total * 100) 1073741824
      extensions := exts
      index_path := cfg
      loaded_from_disk := loaded }

end FileIndexer

/-! Helper lemmas. -/

theorem mem_dedupFirst {α : Type} [DecidableEq α] (xs : List α) (a : α) :
    a ∈ dedupFirst xs ↔ a ∈ xs := by
  induction xs with
  | nil => simp [dedupFirst]
  | cons x xs ih =>
    simp only [dedupFirst, List.mem_cons, List.mem_filter]
    constructor
    · rintro (rfl | ⟨h, _⟩)
      · exact Or.inl rfl
      · exact Or.inr (ih.mp h)
    · rintro (rfl | h)
      · exact Or.inl rfl
      · by_cases hx : a = x
        · exact Or.inl hx
        · exact Or.inr ⟨ih.mpr h, by simpa using hx⟩

theorem nodup_dedupFirst {α : Type} [DecidableEq α] (xs : List α) :
    (dedupFirst xs).Nodup := by
  induction xs with
  | nil => simp [dedupFirst]
  | cons x xs ih =>
    refine List.Nodup.cons ?_ (ih.filter _)
    intro hmem
    rcases List.mem_filter.mp hmem with ⟨-, hne⟩
    simp at hne

theorem dedupFirst_append_singleton {α : Type} [DecidableEq α] (xs : List α) (a : α) :
    dedupFirst (xs ++ [a]) =
      if a ∈ xs then dedupFirst xs else dedupFirst xs ++ [a] := by
  induction xs with
  | nil => simp [dedupFirst]
  | cons x xs ih =>
    by_cases hx : a = x
    · subst hx
      simp only [dedupFirst, List.cons_append, List.mem_cons, true_or, if_true,
        List.append_eq]
      rw [ih]
      by_cases hmem : a ∈ xs
      · simp [hmem]
      · simp [hmem, List.filter_append, dedupFirst]
    · simp only [dedupFirst, List.cons_append, List.mem_cons, List.append_eq]
      rw [ih]
      by_cases hmem : a ∈ xs
      · simp [hmem, hx]
      · have : ¬(a = x ∨ a ∈ xs) := by simp [hx, hmem]
        simp only [hmem, if_false, this, if_false, List.filter_append]
        simp [dedupFirst, Ne.symm, hx]

theorem initExtensions_ne_nil (a : Option (List String)) : initExtensions a ≠ [] := by
  cases a with
  | none => simp [initExtensions, DEFAULT_EXTENSIONS]
  | some l =>
    cases l with
    | nil => simp [initExtensions, DEFAULT_EXTENSIONS]
    | cons x xs => simp [initExtensions]

theorem effectiveExtensions_ne_nil (o : Option (List String)) (i : List String)
    (hi : i ≠ []) : effectiveExtensions o i ≠ [] := by
  cases o with
  | none => exact hi
  | some l =>
    cases l with
    | nil => exact hi
    | cons x xs => simp [effectiveExtensions]

theorem extsLowerOf_ne_nil (l : List String) (h : l ≠ []) : extsLowerOf l ≠ [] := by
  cases l with
  | nil => exact absurd rfl h
  | cons x xs => simp [extsLowerOf, dedupFirst]

/-- C10: constructing the manager with an empty extension set makes it
use DEFAULT_EXTENSIONS, calling scan_folder with an empty extension set
falls back to the instance set, and for every constructor argument and
every per-scan override the effective lowercased extension filter of a
scan is never empty. -/
theorem c10_no_empty_extension_filter :
    initExtensions (some []) = DEFAULT_EXTENSIONS
    ∧ (∀ instExts : List String, effectiveExtensions (some []) instExts = instExts)
    ∧ (∀ (initArg : Option (List String)) (override : Option (List String)),
        extsLowerOf (effectiveExtensions override (initExtensions initArg)) ≠ []) := by
  refine ⟨rfl, fun _ => rfl, fun initArg override => ?_⟩
  exact extsLowerOf_ne_nil _
    (effectiveExtensions_ne_nil _ _ (initExtensions_ne_nil initArg))

/-! The event broker. -/

theorem invokeCallbacks_eq_map (beh : CbBehavior) (ev : MediaEvent) (cs : List CbId) :
    invokeCallbacks beh ev cs = cs.map (fun c => (c, beh c ev)) := by
  induction cs with
  | nil => rfl
  | cons c rest ih => simp [invokeCallbacks, ih]

theorem snapshotCallbacks_eq_filterMap (subs : Subscriptions) (ev : MediaEvent) :
    snapshotCallbacks subs ev =
      subs.filterMap
        (fun s => if ev.event_type ∈ s.2.1 then some s.2.2 else none) := by
  have aux : ∀ (l : Subscriptions) (acc : List CbId),
      l.foldl (fun acc s => if ev.event_type ∈ s.2.1 then acc ++ [s.2.2] else acc) acc
        = acc ++ l.filterMap
            (fun s => if ev.event_type ∈ s.2.1 then some s.2.2 else none) := by
    intro l
    induction l with
    | nil => intro acc; simp
    | cons s rest ih =>
      intro acc
      by_cases h : ev.event_type ∈ s.2.1 <;>
        simp [h, ih, List.filterMap_cons]
  simpa using aux subs []

/-- C4: for every emission, the snapshot phase collects exactly the
callbacks whose subscribed event-type list contains the event type of
the event, in subscription enumeration order, and the invocation phase
calls each snapshotted callback exactly once with its own outcome, so a
raising callback never suppresses a later invocation and the emitting
operation itself always completes (emit_event is a total function). -/
theorem c4_emit_event_snapshot_then_invoke (subs : Subscriptions) (beh : CbBehavior)
    (ev : MediaEvent) :
    emit_event subs beh ev = (snapshotCallbacks subs ev).map (fun c => (c, beh c ev))
    ∧ (∀ c : CbId, c ∈ snapshotCallbacks subs ev
        ↔ ∃ s ∈ subs, ev.event_type ∈ s.2.1 ∧ s.2.2 = c)
    ∧ (emit_event subs beh ev).map Prod.fst = snapshotCallbacks subs ev := by
  refine ⟨invokeCallbacks_eq_map beh ev _, ?_, ?_⟩
  · intro c
    rw [snapshotCallbacks_eq_filterMap]
    simp only [List.mem_filterMap]
    constructor
    · rintro ⟨s, hs, hf⟩
      by_cases h : ev.event_type ∈ s.2.1
      · rw [if_pos h] at hf
        exact ⟨s, hs, h, Option.some.inj hf⟩
      · rw [if_neg h] at hf
        exact absurd hf (by simp)
    · rintro ⟨s, hs, h, rfl⟩
      exact ⟨s, hs, by rw [if_pos h]⟩
  · unfold emit_event
    rw [invokeCallbacks_eq_map, List.map_map]
    exact List.map_id _

/-- Demonstration subscriptions for the C4 witness: three registrations,
two matching FILE_DISCOVERED, one matching SCAN_COMPLETED. -/
def c4wSubs : Subscriptions :=
  [("sub-a", ([EventType.FILE_DISCOVERED], 0)),
   ("sub-b", ([EventType.SCAN_COMPLETED], 1)),
   ("sub-c", ([EventType.FILE_DISCOVERED, EventType.FILE_DELETED], 2))]

/-- Demonstration callback behavior for the C4 witness: callback 0
raises on every event, the others return normally. -/
def c4wBeh : CbBehavior := fun c _ => if c = 0 then some "boom" else none

/-- Demonstration event for the C4 witness. -/
def c4wEv : MediaEvent :=
  { event_type := EventType.FILE_DISCOVERED, source_path := ["media"] }

/-- Witness for C4 at concrete inputs: callback 0 raises, yet callback 2
is still invoked and the emission completes with the full log. -/
theorem c4_emit_event_witness :
    emit_event c4wSubs c4wBeh c4wEv = [(0, some "boom"), (2, none)] :=
  (c4_emit_event_snapshot_then_invoke c4wSubs c4wBeh c4wEv).1.trans (by rfl)

/-- C6: evaluation of FileIndexer.load at the failing input.  A
configured indexer whose backing file holds the JSON text of an empty
array parses successfully, and line 39 of src/file_indexer.py then
calls .get on the resulting list, raising an uncaught AttributeError
instead of logging a warning and returning False. -/
theorem c6_load_raises_on_json_array :
    FileIndexer.load (some "/media_index.json") (FileIndexer.Disk.holds (Json.arr []))
      = FileIndexer.LoadOutcome.raises "AttributeError" := rfl

/-! Grouping by parent folder. -/

theorem gbfGroups_any_iff (P : List MediaFile) (p : FsPath) :
    ((gbfGroups P).any (fun kv => decide (kv.1 = p)) = true)
      ↔ p ∈ P.map (fun f => f.path.dropLast) := by
  unfold gbfGroups
  rw [List.any_eq_true]
  constructor
  · rintro ⟨kv, hkv, hq⟩
    rcases List.mem_map.mp hkv with ⟨k, hk, rfl⟩
    have hkp : k = p := by simpa using hq
    subst hkp
    exact (mem_dedupFirst _ _).mp hk
  · intro h
    refine ⟨(p, P.filter (fun f => decide (f.path.dropLast = p))), ?_, by simp⟩
    exact List.mem_map.mpr ⟨p, (mem_dedupFirst _ _).mpr h, rfl⟩

theorem filter_parent_eq_nil (P : List MediaFile) (p : FsPath)
    (h : p ∉ P.map (fun f => f.path.dropLast)) :
    P.filter (fun f => decide (f.path.dropLast = p)) = [] := by
  rw [List.filter_eq_nil_iff]
  intro f hf
  simp only [decide_eq_true_eq]
  intro heq
  exact h (List.mem_map.mpr ⟨f, hf, heq⟩)

theorem gbfStep_gbfGroups (P : List MediaFile) (f : MediaFile) :
    gbfStep (gbfGroups P) f = gbfGroups (P ++ [f]) := by
  unfold gbfStep
  by_cases h : f.path.dropLast ∈ P.map (fun g => g.path.dropLast)
  · rw [if_pos ((gbfGroups_any_iff P _).mpr h)]
    unfold gbfGroups
    rw [List.map_append]
    simp only [List.map_cons, List.map_nil]
    rw [dedupFirst_append_singleton, if_pos h, List.map_map]
    refine List.map_congr_left ?_
    intro k hk
    by_cases hkp : k = f.path.dropLast
    · subst hkp
      simp [List.filter_append, List.filter_cons]
    · simp only [Function.comp]
      rw [if_neg hkp, List.filter_append]
      have hne : ¬(f.path.dropLast = k) := fun heq => hkp heq.symm
      have : [f].filter (fun g => decide (g.path.dropLast = k)) = [] := by
        simp [List.filter_cons, hne]
      rw [this, List.append_nil]
  · rw [if_neg (by
      intro hc
      exact h ((gbfGroups_any_iff P _).mp hc))]
    unfold gbfGroups
    rw [List.map_append]
    simp only [List.map_cons, List.map_nil]
    rw [dedupFirst_append_singleton, if_neg h, List.map_append]
    congr 1
    · refine List.map_congr_left ?_
      intro k hk
      have hkmem : k ∈ P.map (fun g => g.path.dropLast) := (mem_dedupFirst _ _).mp hk
      have hkp : ¬(f.path.dropLast = k) := fun heq => h (heq ▸ hkmem)
      rw [List.filter_append]
      have : [f].filter (fun g => decide (g.path.dropLast = k)) = [] := by
        simp [List.filter_cons, hkp]
      rw [this, List.append_nil]
    · simp only [List.map_cons, List.map_nil, List.filter_append]
      rw [filter_parent_eq_nil P _ h]
      simp [List.filter_cons]

theorem foldl_gbfStep_gbfGroups (files P : List MediaFile) :
    files.foldl gbfStep (gbfGroups P) = gbfGroups (P ++ files) := by
  induction files generalizing P with
  | nil => simp
  | cons f fs ih =>
    rw [List.foldl_cons, gbfStep_gbfGroups, ih]
    have : (P ++ [f]) ++ fs = P ++ (f :: fs) := by simp
    rw [this]

/-- C9: group_by_folder returns the mapping keyed by the parent folder
of each file, with groups in first-seen order of the input, keys
pairwise distinct, and the group of each key holding exactly the input
files with that parent in their input order. -/
theorem c9_group_by_folder_characterization (files : List MediaFile) :
    group_by_folder files = gbfGroups files
    ∧ ((group_by_folder files).map Prod.fst).Nodup
    ∧ (∀ kv ∈ group_by_folder files,
        kv.2 = files.filter (fun f => decide (f.path.dropLast = kv.1))) := by
  have hmain : group_by_folder files = gbfGroups files := by
    have h := foldl_gbfStep_gbfGroups files []
    have h0 : gbfGroups ([] : List MediaFile) = [] := rfl
    rw [h0] at h
    simpa [group_by_folder] using h
  refine ⟨hmain, ?_, ?_⟩
  · rw [hmain]
    unfold gbfGroups
    rw [List.map_map]
    have : (Prod.fst ∘ fun k =>
        (k, files.filter (fun f => decide (f.path.dropLast = k)))) = id := rfl
    rw [this, List.map_id]
    exact nodup_dedupFirst _
  · intro kv hkv
    rw [hmain] at hkv
    unfold gbfGroups at hkv
    rcases List.mem_map.mp hkv with ⟨k, _, rfl⟩
    rfl

/-! Scanner lemmas. -/

/-- Every scanStep application either leaves the state unchanged, or
appends exactly one probed file (with its size and its FILE_DISCOVERED
event) after the containment check succeeded, or appends exactly one
error string. -/
theorem scanStep_shape (fs : Bool) (root : FsPath) (exts : List String)
    (st : ScanState) (e : FsEntry) :
    scanStep fs root exts st e = st
    ∨ (∃ mf r, e.probe = Except.ok mf ∧ e.resolved = some r
        ∧ isRelativeTo r root = true
        ∧ scanStep fs root exts st e =
            { result :=
                { st.result with
                  files := st.result.files ++ [mf]
                  total_size_bytes := st.result.total_size_bytes + mf.size_bytes }
              events := st.events ++ [fdEvent root mf] })
    ∨ (∃ msg, e.probe = Except.error msg
        ∧ scanStep fs root exts st e =
            { st with result :=
                { st.result with
                  errors := st.result.errors ++ [scanErrMsg e.path msg] } }) := by
  unfold scanStep
  split
  · exact Or.inl rfl
  split
  · exact Or.inl rfl
  split
  · exact Or.inl rfl
  rename_i r hres
  split
  · exact Or.inl rfl
  rename_i hcont
  split
  · split
    · rename_i mf hp
      refine Or.inr (Or.inl ⟨mf, r, hp, hres, ?_, rfl⟩)
      cases hb : isRelativeTo r root with
      | false => exact absurd hb hcont
      | true => rfl
    · rename_i msg hp
      exact Or.inr (Or.inr ⟨msg, hp, rfl⟩)
  · exact Or.inl rfl

theorem scanLoop_inv (fs : Bool) (root : FsPath) (exts : List String)
    (P : ScanState → Prop) :
    ∀ entries : List FsEntry,
      (∀ st e, e ∈ entries → P st → P (scanStep fs root exts st e)) →
      ∀ st, P st → P (scanLoop fs root exts entries st) := by
  intro entries
  induction entries with
  | nil => intro _ st h; exact h
  | cons e es ih =>
    intro hstep st h
    show P (scanLoop fs root exts es (scanStep fs root exts st e))
    exact ih (fun st' e' he' hP => hstep st' e' (List.mem_cons_of_mem _ he') hP) _
      (hstep st e (List.mem_cons_self _ _) h)

theorem scanStep_total (fs : Bool) (root : FsPath) (exts : List String)
    (st : ScanState) (e : FsEntry)
    (h : st.result.total_size_bytes = (st.result.files.map MediaFile.size_bytes).sum) :
    (scanStep fs root exts st e).result.total_size_bytes
      = ((scanStep fs root exts st e).result.files.map MediaFile.size_bytes).sum := by
  rcases scanStep_shape fs root exts st e with heq | ⟨mf, r, _, _, _, heq⟩ | ⟨msg, _, heq⟩ <;>
    rw [heq] <;> simp [h, List.sum_append]

theorem scanStep_events (fs : Bool) (root : FsPath) (exts : List String)
    (st : ScanState) (e : FsEntry)
    (h : st.events = st.result.files.map (fdEvent root)) :
    (scanStep fs root exts st e).events
      = (scanStep fs root exts st e).result.files.map (fdEvent root) := by
  rcases scanStep_shape fs root exts st e with heq | ⟨mf, r, _, _, _, heq⟩ | ⟨msg, _, heq⟩ <;>
    rw [heq] <;> simp [h]

theorem scanStep_contain (fs : Bool) (root : FsPath) (exts : List String)
    (st : ScanState) (e : FsEntry)
    (hcoh : probeCoherent e = true)
    (h : ∀ mf ∈ st.result.files, isRelativeTo mf.path root = true) :
    ∀ mf ∈ (scanStep fs root exts st e).result.files,
      isRelativeTo mf.path root = true := by
  rcases scanStep_shape fs root exts st e with heq | ⟨mf, r, hp, hres, hc, heq⟩ | ⟨msg, _, heq⟩
  · rw [heq]; exact h
  · rw [heq]
    intro g hg
    rcases List.mem_append.mp hg with hg | hg
    · exact h g hg
    · have hgmf : g = mf := by simpa using hg
      subst hgmf
      unfold probeCoherent at hcoh
      rw [hp] at hcoh
      have hpath : e.resolved = some g.path := by simpa using hcoh
      rw [hres] at hpath
      have : g.path = r := (Option.some.inj hpath).symm
      rw [this]
      exact hc
  · rw [heq]; exact h

/-- Unfolded form of a scan_folder call that returned a ScanResult: the
validation flags were true and the output is the loop state with the
final SCAN_COMPLETED event appended. -/
theorem scan_folder_ok_shape {instExts : List String} {root : FsPath}
    {re rd rec fs : Bool} {ov : Option (List String)} {entries : List FsEntry}
    {out : ScanOutput}
    (h : scan_folder instExts root re rd rec ov fs entries = Except.ok out) :
    out =
      { result :=
          (scanLoop fs root (extsLowerOf (effectiveExtensions ov instExts)) entries
            (scanInit instExts root ov)).result
        events :=
          (scanLoop fs root (extsLowerOf (effectiveExtensions ov instExts)) entries
            (scanInit instExts root ov)).events
          ++ [scEvent root
                (scanLoop fs root (extsLowerOf (effectiveExtensions ov instExts)) entries
                  (scanInit instExts root ov)).result.files.length] } := by
  cases re
  · simp [scan_folder] at h
  · cases rd
    · simp [scan_folder] at h
    · simp only [scan_folder] at h
      simp at h
      exact h.symm

/-- C1: in every scan_folder call that returns a ScanResult, every
MediaFile of the files list has a resolved path inside the resolved scan
root (given the oracle coherence that a successful probe reports the
resolved path of the entry), and a traversed entry whose resolved path
falls outside the root leaves the scan state entirely unchanged — it
contributes neither a file nor an error, for every recursion setting. -/
theorem c1_scan_path_containment (instExts : List String) (root : FsPath)
    (re rd rec fs : Bool) (ov : Option (List String)) (entries : List FsEntry)
    (out : ScanOutput)
    (hcoh : ∀ e ∈ entries, probeCoherent e = true)
    (h : scan_folder instExts root re rd rec ov fs entries = Except.ok out) :
    (∀ mf ∈ out.result.files, isRelativeTo mf.path root = true)
    ∧ (∀ (exts : List String) (st : ScanState) (e : FsEntry) (r : FsPath),
        e.resolved = some r → isRelativeTo r root = false →
        scanStep fs root exts st e = st) := by
  constructor
  · have hout := scan_folder_ok_shape h
    subst hout
    exact scanLoop_inv fs root (extsLowerOf (effectiveExtensions ov instExts))
      (fun st => ∀ mf ∈ st.result.files, isRelativeTo mf.path root = true)
      entries
      (fun st e he hP => scanStep_contain fs root _ st e (hcoh e he) hP)
      (scanInit instExts root ov)
      (by intro mf hmf; simp [scanInit] at hmf)
  · intro exts st e r hres hout
    unfold scanStep
    split
    · rfl
    split
    · rfl
    simp only [hres]
    rw [if_pos hout]

/-- Entry used by the C1 witness: one regular file resolving inside the
root. -/
def c1wFile : MediaFile :=
  { path := ["media", "a.mkv"], name := "a.mkv", extension := "mkv"
    size_bytes := 7, modified_at := 3 }

/-- Traversal oracle for the C1 witness. -/
def c1wEntries : List FsEntry :=
  [{ path := ["media", "a.mkv"], isSymlink := false, isFile := true
     resolved := some ["media", "a.mkv"], suffix := ".mkv"
     probe := Except.ok c1wFile },
   { path := ["media", "esc.mkv"], isSymlink := false, isFile := true
     resolved := some ["etc", "shadow.mkv"], suffix := ".mkv"
     probe := Except.ok { c1wFile with
       path := ["etc", "shadow.mkv"], name := "shadow.mkv" } }]

/-- Scan output of the C1 witness call. -/
def c1wOut : ScanOutput :=
  { result :=
      { root_path := ["media"], files := [c1wFile]
        extensions_scanned := ["mkv"], total_size_bytes := 7, errors := [] }
    events := [fdEvent ["media"] c1wFile, scEvent ["media"] 1] }

/-- Witness for C1 at a concrete scan containing an entry that resolves
outside the root. -/
theorem c1_scan_path_containment_witness :
    isRelativeTo c1wFile.path ["media"] = true :=
  (c1_scan_path_containment ["mkv"] ["media"] true true true false none c1wEntries
      c1wOut (by decide) rfl).1 c1wFile (by simp [c1wOut])

/-- C2: the total_size_bytes of the ScanResult returned by every
scan_folder call equals the sum of size_bytes over its files list. -/
theorem c2_total_size_is_sum (instExts : List String) (root : FsPath)
    (re rd rec fs : Bool) (ov : Option (List String)) (entries : List FsEntry)
    (out : ScanOutput)
    (h : scan_folder instExts root re rd rec ov fs entries = Except.ok out) :
    out.result.total_size_bytes = (out.result.files.map MediaFile.size_bytes).sum := by
  have hout := scan_folder_ok_shape h
  subst hout
  exact scanLoop_inv fs root (extsLowerOf (effectiveExtensions ov instExts))
    (fun st => st.result.total_size_bytes = (st.result.files.map MediaFile.size_bytes).sum)
    entries
    (fun st e _ hP => scanStep_total fs root _ st e hP)
    (scanInit instExts root ov) rfl

/-- File used by the C2 witness. -/
def c2wFile : MediaFile :=
  { path := ["media", "b.mkv"], name := "b.mkv", extension := "mkv"
    size_bytes := 11, modified_at := 4 }

/-- Traversal oracle for the C2 witness. -/
def c2wEntries : List FsEntry :=
  [{ path := ["media", "b.mkv"], isSymlink := false, isFile := true
     resolved := some ["media", "b.mkv"], suffix := ".mkv"
     probe := Except.ok c2wFile }]

/-- Scan output of the C2 witness call. -/
def c2wOut : ScanOutput :=
  { result :=
      { root_path := ["media"], files := [c2wFile]
        extensions_scanned := ["mkv"], total_size_bytes := 11, errors := [] }
    events := [fdEvent ["media"] c2wFile, scEvent ["media"] 1] }

/-- Witness for C2 at a concrete one-file scan. -/
theorem c2_total_size_is_sum_witness :
    c2wOut.result.total_size_bytes = (c2wOut.result.files.map MediaFile.size_bytes).sum :=
  c2_total_size_is_sum ["mkv"] ["media"] true true true false none c2wEntries c2wOut rfl

/-- C3: in every scan_folder call that returns, the emission log is
exactly one FILE_DISCOVERED event per file of the returned files list,
in order, followed by exactly one SCAN_COMPLETED event whose
files_found count is the file_count of the returned report; and the
discovery events are streamed: at every intermediate loop state whose
log matches its files so far, the log after any further entries still
matches the files found so far, so each event is published when its
file is appended rather than buffered until scan end. -/
theorem c3_discovery_event_streaming (instExts : List String) (root : FsPath)
    (re rd rec fs : Bool) (ov : Option (List String)) (entries : List FsEntry)
    (out : ScanOutput)
    (h : scan_folder instExts root re rd rec ov fs entries = Except.ok out) :
    out.events = out.result.files.map (fdEvent root)
      ++ [scEvent root out.result.file_count]
    ∧ out.events.filter (fun ev => decide (ev.event_type = EventType.FILE_DISCOVERED))
        = out.result.files.map (fdEvent root)
    ∧ out.events.filter (fun ev => decide (ev.event_type = EventType.SCAN_COMPLETED))
        = [scEvent root out.result.file_count]
    ∧ (∀ (exts : List String) (more : List FsEntry) (st : ScanState),
        st.events = st.result.files.map (fdEvent root) →
        (scanLoop fs root exts more st).events
          = (scanLoop fs root exts more st).result.files.map (fdEvent root)) := by
  have hstream : ∀ (exts : List String) (more : List FsEntry) (st : ScanState),
      st.events = st.result.files.map (fdEvent root) →
      (scanLoop fs root exts more st).events
        = (scanLoop fs root exts more st).result.files.map (fdEvent root) := by
    intro exts more st hst
    exact scanLoop_inv fs root exts
      (fun st => st.events = st.result.files.map (fdEvent root))
      more (fun st e _ hP => scanStep_events fs root exts st e hP) st hst
  have hsh := scan_folder_ok_shape h
  set S := scanLoop fs root (extsLowerOf (effectiveExtensions ov instExts)) entries
      (scanInit instExts root ov) with hS
  have hloop : S.events = S.result.files.map (fdEvent root) := by
    rw [hS]
    exact hstream _ entries (scanInit instExts root ov) rfl
  have hev : out.events = S.events ++ [scEvent root S.result.files.length] := by
    rw [hsh]
  have hre : out.result = S.result := by
    rw [hsh]
  have hfd : (List.filter (fun ev => decide (ev.event_type = EventType.FILE_DISCOVERED))
      (S.result.files.map (fdEvent root))) = S.result.files.map (fdEvent root) := by
    rw [List.filter_map]
    have hcompTrue : ((fun ev => decide (ev.event_type = EventType.FILE_DISCOVERED))
        ∘ fdEvent root) = fun _ => true := by
      funext mf; simp [fdEvent]
    rw [hcompTrue, List.filter_true]
  have hsc : (List.filter (fun ev => decide (ev.event_type = EventType.SCAN_COMPLETED))
      (S.result.files.map (fdEvent root))) = [] := by
    rw [List.filter_map]
    have hcompFalse : ((fun ev => decide (ev.event_type = EventType.SCAN_COMPLETED))
        ∘ fdEvent root) = fun _ => false := by
      funext mf; simp [fdEvent]
    rw [hcompFalse, List.filter_false, List.map_nil]
  refine ⟨?_, ?_, ?_, hstream⟩
  · rw [hev, hre, hloop]
    rfl
  · rw [hev, hre, hloop, List.filter_append, hfd]
    simp [List.filter_cons, scEvent]
  · rw [hev, hre, hloop, List.filter_append, hsc]
    simp [List.filter_cons, scEvent]
    rfl

/-- File used by the C3 witness. -/
def c3wFile : MediaFile :=
  { path := ["media", "c.mkv"], name := "c.mkv", extension := "mkv"
    size_bytes := 9, modified_at := 5 }

/-- Traversal oracle for the C3 witness. -/
def c3wEntries : List FsEntry :=
  [{ path := ["media", "c.mkv"], isSymlink := false, isFile := true
     resolved := some ["media", "c.mkv"], suffix := ".mkv"
     probe := Except.ok c3wFile }]

/-- Scan output of the C3 witness call. -/
def c3wOut : ScanOutput :=
  { result :=
      { root_path := ["media"], files := [c3wFile]
        extensions_scanned := ["mkv"], total_size_bytes := 9, errors := [] }
    events := [fdEvent ["media"] c3wFile, scEvent ["media"] 1] }

/-- Witness for C3 at a concrete one-file scan. -/
theorem c3_discovery_event_streaming_witness :
    c3wOut.events = c3wOut.result.files.map (fdEvent ["media"])
      ++ [scEvent ["media"] c3wOut.result.file_count] :=
  (c3_discovery_event_streaming ["mkv"] ["media"] true true true false none
    c3wEntries c3wOut rfl).1

/-- C5: an OSError or PermissionError raised while probing one file is
caught for that file alone: under the guards that let an entry reach
the probe, a failing probe appends exactly one human-readable string to
the errors list and changes nothing else; the loop keeps processing the
remaining entries after any entry; and no single entry ever contributes
both a file and an error, so errors and files entries are disjoint
per traversed candidate. -/
theorem c5_probe_error_isolation (fs : Bool) (root : FsPath) :
    (∀ (exts : List String) (st : ScanState) (e : FsEntry) (r : FsPath) (msg : String),
        (e.isSymlink && !fs) = false → e.isFile = true → e.resolved = some r →
        isRelativeTo r root = true → normExt e.suffix ∈ exts →
        e.probe = Except.error msg →
        scanStep fs root exts st e =
          { st with result :=
              { st.result with errors := st.result.errors ++ [scanErrMsg e.path msg] } })
    ∧ (∀ (exts : List String) (l1 l2 : List FsEntry) (st : ScanState),
        scanLoop fs root exts (l1 ++ l2) st
          = scanLoop fs root exts l2 (scanLoop fs root exts l1 st))
    ∧ (∀ (exts : List String) (st : ScanState) (e : FsEntry),
        (scanStep fs root exts st e).result.files = st.result.files
        ∨ (scanStep fs root exts st e).result.errors = st.result.errors) := by
  refine ⟨?_, ?_, ?_⟩
  · intro exts st e r msg h1 h2 hres h4 h5 hprobe
    unfold scanStep
    rw [if_neg (by simp [h1]), if_neg (by simp [h2])]
    simp only [hres]
    rw [if_neg (by simp [h4]), if_pos h5]
    simp only [hprobe]
  · intro exts l1 l2 st
    simp [scanLoop, List.foldl_append]
  · intro exts st e
    rcases scanStep_shape fs root exts st e with heq | ⟨mf, r, _, _, _, heq⟩ | ⟨msg, _, heq⟩
    · rw [heq]; exact Or.inl rfl
    · rw [heq]; exact Or.inr rfl
    · rw [heq]; exact Or.inl rfl

/-- Scan state used by the C5 witness. -/
def c5wSt : ScanState :=
  { result := { root_path := ["media"] }, events := [] }

/-- Entry whose probe raises, used by the C5 witness. -/
def c5wEntry : FsEntry :=
  { path := ["media", "bad.mkv"], isSymlink := false, isFile := true
    resolved := some ["media", "bad.mkv"], suffix := ".mkv"
    probe := Except.error "Permission denied" }

/-- Witness for C5 at a concrete failing probe. -/
theorem c5_probe_error_isolation_witness :
    scanStep false ["media"] ["mkv"] c5wSt c5wEntry
      = { c5wSt with result :=
          { c5wSt.result with
            errors := c5wSt.result.errors ++ [scanErrMsg c5wEntry.path "Permission denied"] } } :=
  (c5_probe_error_isolation false ["media"]).1 ["mkv"] c5wSt c5wEntry
    ["media", "bad.mkv"] "Permission denied" rfl rfl rfl rfl (by decide) rfl

/-! Index dictionary lemmas. -/

theorem dictSet_not_mem (m : Index) (k : String) (v : Json)
    (h : k ∉ m.map Prod.fst) : dictSet m k v = m ++ [(k, v)] := by
  unfold dictSet
  rw [if_neg]
  intro hany
  rw [List.any_eq_true] at hany
  obtain ⟨kv, hkv, hq⟩ := hany
  exact h (List.mem_map.mpr ⟨kv, hkv, by simpa using hq⟩)

theorem map_setKey_id (m : Index) (k : String) (v : Json)
    (h : k ∉ m.map Prod.fst) :
    m.map (fun kv => if kv.1 = k then (k, v) else kv) = m := by
  have : ∀ kv ∈ m, (fun kv => if kv.1 = k then (k, v) else kv) kv = id kv := by
    intro kv hkv
    have hne : kv.1 ≠ k := fun heq => h (heq ▸ List.mem_map.mpr ⟨kv, hkv, rfl⟩)
    simp [hne]
  rw [List.map_congr_left this, List.map_id]

theorem dictSet_cons_ne (kv : String × Json) (m : Index) (k : String) (v : Json)
    (h : kv.1 ≠ k) : dictSet (kv :: m) k v = kv :: dictSet m k v := by
  by_cases h2 : m.any (fun kv => decide (kv.1 = k))
  · unfold dictSet
    rw [if_pos (by simp [List.any_cons, h2]), if_pos h2, List.map_cons, if_neg h]
  · unfold dictSet
    rw [if_neg (by simp [List.any_cons, h2, h]),
      if_neg (by simp [h2]), List.cons_append]

theorem dictSet_cons_eq (kv : String × Json) (m : Index) (k : String) (v : Json)
    (h : kv.1 = k) (hnm : k ∉ m.map Prod.fst) :
    dictSet (kv :: m) k v = (k, v) :: m := by
  unfold dictSet
  rw [if_pos (by simp [List.any_cons, h]), List.map_cons, if_pos h,
    map_setKey_id m k v hnm]

theorem lookup_dictSet_nodup (m : Index) (k : String) (v : Json)
    (h : (m.map Prod.fst).Nodup) : (dictSet m k v).lookup k = some v := by
  induction m with
  | nil => simp [dictSet, List.lookup_cons]
  | cons kv m ih =>
    rw [List.map_cons, List.nodup_cons] at h
    obtain ⟨hhead, htail⟩ := h
    by_cases heq : kv.1 = k
    · rw [dictSet_cons_eq kv m k v heq (heq ▸ hhead)]
      simp [List.lookup_cons]
    · rw [dictSet_cons_ne kv m k v heq]
      obtain ⟨k1, v1⟩ := kv
      have hne : (k == k1) = false :=
        beq_eq_false_iff_ne.mpr (fun hk => heq hk.symm)
      rw [List.lookup_cons]
      simp only [hne]
      exact ih htail

theorem filter_dictSet_nodup (m : Index) (k : String) (v : Json)
    (h : (m.map Prod.fst).Nodup) :
    (dictSet m k v).filter (fun kv => decide (kv.1 = k)) = [(k, v)] := by
  induction m with
  | nil => simp [dictSet, List.filter_cons]
  | cons kv m ih =>
    rw [List.map_cons, List.nodup_cons] at h
    obtain ⟨hhead, htail⟩ := h
    by_cases heq : kv.1 = k
    · rw [dictSet_cons_eq kv m k v heq (heq ▸ hhead)]
      rw [List.filter_cons, if_pos (by simp)]
      have hnil : m.filter (fun kv => decide (kv.1 = k)) = [] := by
        rw [List.filter_eq_nil_iff]
        intro a ha
        simp only [decide_eq_true_eq]
        intro hak
        exact (heq ▸ hhead) (hak ▸ List.mem_map.mpr ⟨a, ha, rfl⟩)
      rw [hnil]
    · rw [dictSet_cons_ne kv m k v heq, List.filter_cons,
        if_neg (by simpa using heq)]
      exact ih htail

theorem keys_dictSet (m : Index) (k : String) (v : Json) :
    (dictSet m k v).map Prod.fst =
      if k ∈ m.map Prod.fst then m.map Prod.fst else m.map Prod.fst ++ [k] := by
  by_cases h : k ∈ m.map Prod.fst
  · rw [if_pos h]
    unfold dictSet
    rw [if_pos]
    · rw [List.map_map]
      refine List.map_congr_left ?_
      intro kv _
      by_cases heq : kv.1 = k
      · simp [heq]
      · simp [heq]
    · rw [List.any_eq_true]
      obtain ⟨kv, hkv, hq⟩ := List.mem_map.mp h
      exact ⟨kv, hkv, by simp [hq]⟩
  · rw [if_neg h, dictSet_not_mem m k v h, List.map_append]
    rfl

theorem nodup_keys_dictSet (m : Index) (k : String) (v : Json)
    (h : (m.map Prod.fst).Nodup) : ((dictSet m k v).map Prod.fst).Nodup := by
  rw [keys_dictSet]
  by_cases hmem : k ∈ m.map Prod.fst
  · rw [if_pos hmem]; exact h
  · rw [if_neg hmem]
    rw [List.nodup_append]
    exact ⟨h, List.nodup_singleton k, by simpa using hmem⟩

/-! Round trip lemmas for the file indexer. -/

theorem foldl_add_file_eq (files : List MediaFile) :
    ∀ idx0 : Index,
      (files.map (fun f => pathStr f.path)).Nodup →
      (∀ f ∈ files, pathStr f.path ∉ idx0.map Prod.fst) →
      files.foldl FileIndexer.add_file idx0
        = idx0 ++ files.map (fun f => (pathStr f.path, f.to_dict)) := by
  induction files with
  | nil => intro idx0 _ _; simp
  | cons f fs ih =>
    intro idx0 hnd hfresh
    rw [List.foldl_cons]
    have h1 : FileIndexer.add_file idx0 f = idx0 ++ [(pathStr f.path, f.to_dict)] := by
      unfold FileIndexer.add_file
      exact dictSet_not_mem _ _ _ (hfresh f (List.mem_cons_self _ _))
    rw [h1]
    rw [List.map_cons, List.nodup_cons] at hnd
    obtain ⟨hnotin, hndtail⟩ := hnd
    have hfresh2 : ∀ g ∈ fs,
        pathStr g.path ∉ (idx0 ++ [(pathStr f.path, f.to_dict)]).map Prod.fst := by
      intro g hg hmem
      rw [List.map_append] at hmem
      rcases List.mem_append.mp hmem with hin | hin
      · exact hfresh g (List.mem_cons_of_mem _ hg) hin
      · have heq : pathStr g.path = pathStr f.path := by simpa using hin
        exact hnotin (heq ▸ List.mem_map.mpr ⟨g, hg, rfl⟩)
    rw [ih (idx0 ++ [(pathStr f.path, f.to_dict)]) hndtail hfresh2]
    simp

theorem lookup_files_map (files : List MediaFile) (f : MediaFile)
    (hnd : (files.map (fun g => pathStr g.path)).Nodup) (hf : f ∈ files) :
    (files.map (fun g => (pathStr g.path, g.to_dict))).lookup (pathStr f.path)
      = some f.to_dict := by
  induction files with
  | nil => cases hf
  | cons g gs ih =>
    rw [List.map_cons, List.nodup_cons] at hnd
    obtain ⟨hnotin, hndtail⟩ := hnd
    rcases List.mem_cons.mp hf with rfl | hf2
    · simp [List.lookup_cons]
    · have hne : (pathStr f.path == pathStr g.path) = false :=
        beq_eq_false_iff_ne.mpr
          (fun heq => hnotin (heq ▸ List.mem_map.mpr ⟨f, hf2, rfl⟩))
      rw [List.map_cons, List.lookup_cons]
      simp only [hne]
      exact ih hndtail hf2

theorem sizeOfInfo_to_dict (mf : MediaFile) :
    FileIndexer.sizeOfInfo mf.to_dict = Except.ok mf.size_bytes := rfl

theorem extOfInfo_to_dict (mf : MediaFile) :
    FileIndexer.extOfInfo mf.to_dict = Except.ok mf.extension := rfl

theorem sumSizes_ok (vs : List Json)
    (h : ∀ v ∈ vs, ∃ mf : MediaFile, v = mf.to_dict) :
    ∃ n : Int, FileIndexer.sumSizes vs = Except.ok n := by
  induction vs with
  | nil => exact ⟨0, rfl⟩
  | cons v rest ih =>
    obtain ⟨mf, rfl⟩ := h v (List.mem_cons_self _ _)
    obtain ⟨n, hn⟩ := ih (fun w hw => h w (List.mem_cons_of_mem _ hw))
    refine ⟨mf.size_bytes + n, ?_⟩
    unfold FileIndexer.sumSizes
    rw [sizeOfInfo_to_dict, hn]
    rfl

theorem extHistogramAux_ok (vs : List Json)
    (h : ∀ v ∈ vs, ∃ mf : MediaFile, v = mf.to_dict) :
    ∀ acc, ∃ hst, FileIndexer.extHistogramAux acc vs = Except.ok hst := by
  induction vs with
  | nil => exact fun acc => ⟨acc, rfl⟩
  | cons v rest ih =>
    intro acc
    obtain ⟨mf, rfl⟩ := h v (List.mem_cons_self _ _)
    obtain ⟨hst, hh⟩ := ih (fun w hw => h w (List.mem_cons_of_mem _ hw))
      (FileIndexer.bumpCount acc mf.extension)
    refine ⟨hst, ?_⟩
    unfold FileIndexer.extHistogramAux
    rw [extOfInfo_to_dict]
    exact hh

theorem get_stats_ok (idx : Index) (cfg : Option String) (loaded : Bool)
    (h : ∀ v ∈ idx.map Prod.snd, ∃ mf : MediaFile, v = mf.to_dict) :
    ∃ s : FileIndexer.IndexStats,
      FileIndexer.get_stats idx cfg loaded = Except.ok s
      ∧ s.file_count = idx.length := by
  obtain ⟨n, hn⟩ := sumSizes_ok (idx.map Prod.snd) h
  obtain ⟨hst, hh⟩ := extHistogramAux_ok (idx.map Prod.snd) h []
  refine ⟨{ file_count := idx.length, total_size_bytes := n
            total_size_gb := roundHalfEven (n * 100) 1073741824
            extensions := hst, index_path := cfg, loaded_from_disk := loaded },
    ?_, rfl⟩
  unfold FileIndexer.get_stats
  rw [hn, hh]
  rfl

/-- File used by the C7 counterexample: produced twice by a scan that
followed a symlink aliasing the same file, so the report holds two
records with one canonical path. -/
def c7xFile : MediaFile :=
  { path := ["media", "dup.mkv"], name := "dup.mkv", extension := "mkv"
    size_bytes := 5, modified_at := 0 }

/-- ScanResult used by the C7 counterexample: two files sharing one
path string. -/
def c7xReport : ScanResult :=
  { root_path := ["media"], files := [c7xFile, c7xFile]
    extensions_scanned := ["mkv"], total_size_bytes := 10 }

/-- C7 fails as stated: for the reachable ScanResult holding the same
path twice, the index after add_scan_result, save and load holds one
entry, so the loaded file_count is 1 while the report file_count is
2. -/
theorem c7_index_roundtrip_counterexample :
    (FileIndexer.get_stats (FileIndexer.add_scan_result [] c7xReport).1
        (some "/media_index.json") true).map FileIndexer.IndexStats.file_count
      = Except.ok 1
    ∧ c7xReport.file_count = 2
    ∧ FileIndexer.load (some "/media_index.json")
        (FileIndexer.save (some "/media_index.json")
          (FileIndexer.add_scan_result [] c7xReport).1 0 true FileIndexer.Disk.missing).2
        = FileIndexer.LoadOutcome.retTrue (FileIndexer.add_scan_result [] c7xReport).1 := by
  refine ⟨?_, rfl, ?_⟩ <;> rfl

/-- C7 amended: for every ScanResult whose files carry pairwise distinct
path strings, add_scan_result on a fresh configured FileIndexer,
followed by a successful save, followed by load on a fresh FileIndexer
with the same path, restores exactly the in-memory index; get_stats
then reports file_count equal to the report file_count, and get_file at
each canonical file path (a path that resolution maps to itself)
returns the stored record, whose size_bytes field is that file record
size_bytes. -/
theorem c7_index_roundtrip_amended (p : String) (report : ScanResult) (now : Int)
    (disk0 : FileIndexer.Disk) (resolve : FsPath → FsPath)
    (hnodup : (report.files.map (fun f => pathStr f.path)).Nodup)
    (hres : ∀ f ∈ report.files, resolve f.path = f.path) :
    (FileIndexer.save (some p) (FileIndexer.add_scan_result [] report).1 now true disk0).1
        = true
    ∧ FileIndexer.load (some p)
        (FileIndexer.save (some p) (FileIndexer.add_scan_result [] report).1 now true disk0).2
        = FileIndexer.LoadOutcome.retTrue (FileIndexer.add_scan_result [] report).1
    ∧ (FileIndexer.get_stats (FileIndexer.add_scan_result [] report).1 (some p) true).map
        FileIndexer.IndexStats.file_count = Except.ok report.file_count
    ∧ ∀ f ∈ report.files,
        FileIndexer.get_file resolve (FileIndexer.add_scan_result [] report).1 f.path
          = some f.to_dict
        ∧ jsonField f.to_dict "size_bytes" = some (Json.num f.size_bytes) := by
  have hidx : (FileIndexer.add_scan_result [] report).1
      = report.files.map (fun f => (pathStr f.path, f.to_dict)) := by
    unfold FileIndexer.add_scan_result
    exact foldl_add_file_eq report.files [] hnodup (by intro f _ hmem; simp at hmem)
  refine ⟨rfl, rfl, ?_, ?_⟩
  · have hvals : ∀ v ∈ ((FileIndexer.add_scan_result [] report).1).map Prod.snd,
        ∃ mf : MediaFile, v = mf.to_dict := by
      rw [hidx, List.map_map]
      intro v hv
      obtain ⟨f, _, hf⟩ := List.mem_map.mp hv
      exact ⟨f, hf.symm⟩
    obtain ⟨s, hs, hcount⟩ :=
      get_stats_ok (FileIndexer.add_scan_result [] report).1 (some p) true hvals
    rw [hs]
    have hlen : (FileIndexer.add_scan_result [] report).1.length = report.files.length := by
      rw [hidx, List.length_map]
    show Except.ok s.file_count = Except.ok report.file_count
    rw [hcount, hlen]
    rfl
  · intro f hf
    refine ⟨?_, rfl⟩
    unfold FileIndexer.get_file
    rw [hres f hf, hidx]
    exact lookup_files_map report.files f hnodup hf

/-- Report used by the C7 witness: two files with distinct paths. -/
def c7wReport : ScanResult :=
  { root_path := ["media"]
    files :=
      [{ path := ["media", "a.mkv"], name := "a.mkv", extension := "mkv"
         size_bytes := 3, modified_at := 1 },
       { path := ["media", "b.mkv"], name := "b.mkv", extension := "mkv"
         size_bytes := 4, modified_at := 2 }]
    extensions_scanned := ["mkv"], total_size_bytes := 7 }

/-- Witness for the amended C7 at a concrete two-file report. -/
theorem c7_index_roundtrip_amended_witness :
    (FileIndexer.get_stats (FileIndexer.add_scan_result [] c7wReport).1
        (some "/media_index.json") true).map FileIndexer.IndexStats.file_count
      = Except.ok c7wReport.file_count :=
  (c7_index_roundtrip_amended "/media_index.json" c7wReport 0 FileIndexer.Disk.missing
    id (by decide) (by intro f _; rfl)).2.2.1

/-- C8: adding two MediaFile records with the same path leaves exactly
one index entry for that path, holding the dictionary of the second
record; get_file at the canonical path returns only the latest record;
and add_scan_result of a report holding both files performs exactly the
same two add_file calls. -/
theorem c8_last_write_wins (idx : Index) (mf1 mf2 : MediaFile)
    (hkeys : (idx.map Prod.fst).Nodup) (_hpath : mf1.path = mf2.path) :
    ((FileIndexer.add_file (FileIndexer.add_file idx mf1) mf2).filter
        (fun kv => decide (kv.1 = pathStr mf2.path))).length = 1
    ∧ (FileIndexer.add_file (FileIndexer.add_file idx mf1) mf2).lookup (pathStr mf2.path)
        = some mf2.to_dict
    ∧ (∀ resolve : FsPath → FsPath, resolve mf2.path = mf2.path →
        FileIndexer.get_file resolve (FileIndexer.add_file (FileIndexer.add_file idx mf1) mf2)
          mf2.path = some mf2.to_dict)
    ∧ (∀ (root : FsPath) (extsScanned : List String) (tsb : Int) (errs : List String),
        (FileIndexer.add_scan_result idx
          { root_path := root, files := [mf1, mf2], extensions_scanned := extsScanned
            total_size_bytes := tsb, errors := errs }).1
          = FileIndexer.add_file (FileIndexer.add_file idx mf1) mf2) := by
  have hnd1 : ((FileIndexer.add_file idx mf1).map Prod.fst).Nodup :=
    nodup_keys_dictSet idx (pathStr mf1.path) mf1.to_dict hkeys
  have hlk : (FileIndexer.add_file (FileIndexer.add_file idx mf1) mf2).lookup
      (pathStr mf2.path) = some mf2.to_dict :=
    lookup_dictSet_nodup (FileIndexer.add_file idx mf1) (pathStr mf2.path) mf2.to_dict hnd1
  refine ⟨?_, hlk, ?_, ?_⟩
  · have hfl := filter_dictSet_nodup (FileIndexer.add_file idx mf1) (pathStr mf2.path)
      mf2.to_dict hnd1
    unfold FileIndexer.add_file at hfl ⊢
    rw [hfl]
    rfl
  · intro resolve hresolve
    unfold FileIndexer.get_file
    rw [hresolve]
    exact hlk
  · intro root extsScanned tsb errs
    rfl

/-- First record of the C8 witness. -/
def c8mf1 : MediaFile :=
  { path := ["media", "x.mkv"], name := "x.mkv", extension := "mkv"
    size_bytes := 1, modified_at := 0 }

/-- Second record of the C8 witness: same path, different size. -/
def c8mf2 : MediaFile := { c8mf1 with size_bytes := 2, modified_at := 9 }

/-- Witness for C8 at two concrete records sharing one path. -/
theorem c8_last_write_wins_witness :
    (FileIndexer.add_file (FileIndexer.add_file [] c8mf1) c8mf2).lookup (pathStr c8mf2.path)
      = some c8mf2.to_dict :=
  (c8_last_write_wins [] c8mf1 c8mf2 (by simp) rfl).2.1

end EMM
